import Mathlib

/-
Verification of the TokenSmith training-sample index builder and corpus editor.

The definitions below are a shallow embedding of `src/tokensmith/megatron_dependencies.py`
(`_num_epochs`, `_build_doc_idx`, `_build_shuffle_idx`, `build_index_mappings`,
`get_train_valid_test_split_`) and of the corpus-editing layer reached from
`src/tokensmith/edit/handler.py`.

Modelling conventions:
* `np.random.RandomState` is modelled abstractly: a call to `np_rng.shuffle` on an
  array of length `n` performs the Fisher–Yates walk `for i in n-1 .. 1: j = draw(i) % (i+1);
  swap(a[i], a[j])`, where `draw : Nat → Nat` stands for the raw integer stream of the
  generator.  Successive shuffle calls inside one function consume disjoint parts of the
  generator stream; this is modelled by indexing a family `rands : Nat → Nat → Nat` with a
  fresh first argument for each shuffle call site (and each re-shuffle on cycle wrap).
  Every concrete seed gives one instance of such a family, so facts proved for all `rands`
  hold for every seed.
* Python lists/ndarrays are Lean `List`s; appends are `++ [x]`.
* Python exceptions that the code can actually raise on these paths (`IndexError` on an
  out-of-bounds ndarray access, `AttributeError` on `None.get`, `ZeroDivisionError` on
  `% 0`) are explicit `PyErr` outcomes; a `while` loop is run on explicit fuel and an
  exhausted fuel is the `outOfFuel`/`spin` outcome (the real loop would still be running).
* `build_index_mappings` persists its three arrays with `np.save` and returns `None`;
  the observable behaviour modelled here is which arrays get built and saved.  The
  cache-hit path (all three files already exist) is not modelled: every claim below is
  about the build path, with the cache absent.
* numpy `astype(np.int32)` is the two's-complement wrap `astypeInt32`.
-/

namespace TokenSmith

/-! ## Python-level outcomes -/

/-- Exceptions the modelled code can raise. -/
inductive PyErr : Type
  | indexError
  | attributeError
  | zeroDivisionError
  deriving DecidableEq, Repr

/-- Result of one execution of a loop body: either a next state or an exception. -/
inductive PyResult (σ : Type) : Type
  | ok (s : σ)
  | raised (e : PyErr)
  deriving DecidableEq, Repr

/-- Result of running a fuelled `while` loop. -/
inductive LoopRes (σ : Type) : Type
  | done (s : σ)
  | err (e : PyErr)
  | spin
  deriving DecidableEq, Repr

/-! ## numpy shuffle model (Fisher–Yates) -/

/-- Swap the entries at positions `i` and `j`; out-of-range positions leave the list
unchanged (the model only ever swaps in range). -/
def listSwap (l : List α) (i j : Nat) : List α :=
  match l[i]?, l[j]? with
  | some a, some b => (l.set i b).set j a
  | _, _ => l

/-- The Fisher–Yates descent: swap position `i` with `draw i % (i+1)` for
`i = k, k-1, …, 1`. -/
def fyAux (draw : Nat → Nat) : List α → Nat → List α
  | l, 0 => l
  | l, i + 1 => fyAux draw (listSwap l (i + 1) (draw (i + 1) % (i + 2))) i

/-- Model of `np_rng.shuffle` on a one-dimensional array. -/
def fisherYates (draw : Nat → Nat) (l : List α) : List α :=
  fyAux draw l (l.length - 1)

/-- Ascending sort of a `List Nat` (used to state the permutation property the way the
spec states it: `sorted(shuffle_idx) == range(len(shuffle_idx))`). -/
def sortNat (l : List Nat) : List Nat :=
  l.mergeSort (fun a b => a ≤ b)

/-! ## `_build_doc_idx` (megatron_dependencies.py lines 38-49) -/

/-- numpy `astype(np.int32)`: two's-complement wrap of a nonnegative integer into
`[-2^31, 2^31)`. -/
def astypeInt32 (n : Nat) : Int :=
  (((n + 2 ^ 31) % 2 ^ 32 : Nat) : Int) - 2 ^ 31

/-- `_build_doc_idx(documents, num_epochs, np_rng)`: `np.mgrid[0:num_epochs, 0:len][1]`
broadcast with `documents` and reshaped to one dimension is `num_epochs` stacked copies
of `documents`; then `astype(np.int32)`, then one `np_rng.shuffle` over the whole
flattened array. -/
def build_doc_idx (documents : List Nat) (numEpochs : Nat) (draw : Nat → Nat) : List Int :=
  fisherYates draw (((List.replicate numEpochs documents).flatten).map astypeInt32)

/-! ## `_build_shuffle_idx` (megatron_dependencies.py lines 51-61) -/

/-- The numpy element types `_build_shuffle_idx` chooses between. -/
inductive NpDtype : Type
  | uint32
  | int64
  deriving DecidableEq, Repr

/-- Dtype selection of `_build_shuffle_idx`: `np.uint32` unless
`size >= np.iinfo(np.uint32).max - 1`, i.e. unless `size ≥ 2^32 - 2`, in which case
`np.int64`. -/
def shuffle_idx_dtype (size : Nat) : NpDtype :=
  if 2 ^ 32 - 1 - 1 ≤ size then NpDtype.int64 else NpDtype.uint32

/-- `_build_shuffle_idx(size, np_rng)`: `np.arange(size)` then one shuffle.  The values
are kept as `Nat`: every value is `< size`, hence representable in the selected dtype,
so no wrap occurs. -/
def build_shuffle_idx (size : Nat) (draw : Nat → Nat) : List Nat :=
  fisherYates draw (List.range size)

/-! ## `_num_epochs` (megatron_dependencies.py lines 21-36) -/

/-- The `while True` body of `_num_epochs`, on fuel.  `tot` is `total_tokens` before
this iteration and equals (epochs so far) × `tpe`.  The Python test is
`(total_tokens - 1) // seq_length >= num_samples` on arbitrary-precision integers with
floor division, modelled with `Int.fdiv`. -/
def numEpochsGo (tpe seqLen numSamples : Nat) : Nat → Nat → Nat → Option Nat
  | 0, _, _ => none
  | fuel + 1, ne, tot =>
    let ne1 := ne + 1
    let tot1 := tot + tpe
    if (numSamples : Int) ≤ ((tot1 : Int) - 1).fdiv (seqLen : Int) then some ne1
    else numEpochsGo tpe seqLen numSamples fuel ne1 tot1

/-- `_num_epochs(tokens_per_epoch, seq_length, num_samples)`.  Fuel
`numSamples * seqLen + 1` epochs always suffices when `tpe ≥ 1`; `none` models the loop
still running (it really does run forever when `tokens_per_epoch = 0`). -/
def num_epochs (tpe seqLen numSamples : Nat) : Option Nat :=
  numEpochsGo tpe seqLen numSamples (numSamples * seqLen + 1) 0 0

/-- `_num_tokens(documents, sizes)` = `np.sum(sizes[documents])`. -/
def num_tokens (documents sizes : List Nat) : Nat :=
  (documents.map (fun d => sizes.getD d 0)).sum

/-! ## `get_train_valid_test_split_` (megatron_dependencies.py lines 235-261) -/

/-- Python 3 `round` to an integer: round half to even (banker's rounding), on exact
rationals. -/
def pyRound (q : ℚ) : ℤ :=
  let f : ℤ := q.num.fdiv (q.den : ℤ)
  let r : ℚ := q - (f : ℚ)
  if r < 1 / 2 then f
  else if 1 / 2 < r then f + 1
  else if f % 2 = 0 then f else f + 1

/-- The accumulation loop of `get_train_valid_test_split_`:
`splits_index.append(splits_index[index] + int(round(split * float(size))))`. -/
def cumBounds (size : Nat) : List ℚ → ℤ → List ℤ
  | [], _ => []
  | sp :: rest, acc =>
    let b := acc + pyRound (sp * (size : ℚ))
    b :: cumBounds size rest b

/-- `get_train_valid_test_split_(splits_string, size)` after the string has been parsed
into its numeric fields (`","`- or `"/"`-separated, here already a `List ℚ`): pad with
zeros to three entries, truncate to three, normalise by the sum (`assert splits_sum > 0`
modelled as `none`), accumulate the rounded boundaries from `[0]`, then subtract
`splits_index[-1] - size` from every entry except the leading `0`. -/
def get_train_valid_test_split_ (splits0 : List ℚ) (size : Nat) : Option (List ℤ) :=
  let splits := (splits0 ++ List.replicate (3 - splits0.length) 0).take 3
  let s := splits.sum
  if 0 < s then
    let norm := splits.map (fun sp => sp / s)
    let cum := cumBounds size norm 0
    let diff : ℤ := cum.getLastD 0 - (size : ℤ)
    some (0 :: cum.map (fun b => b - diff))
  else none

/-! ## `build_index_mappings` (megatron_dependencies.py lines 63-233) -/

/-- Loop state of the `pack_until_overflow` branch (lines 163-206):
`temp` = `temp_shuffle_idx`, `curr` = `curr_shuffle_idx`, `running` = `running_length`,
`wraps` counts completed cycle wraps (used to index the re-shuffle draws). -/
structure PackState : Type where
  temp : List Nat
  curr : Nat
  running : Nat
  docIdx : List Nat
  sampleIdx : List (Nat × Nat)
  wraps : Nat
  deriving DecidableEq, Repr

/-- Lines 190-205: read `doc_length = sizes[temp[curr]]`, open/extend/close the current
sample, append the document, advance `curr`, and wrap-and-reshuffle when
`curr == len(documents)`. -/
def packStepBody (sizes : List Nat) (seqLen numDocs : Nat) (rands : Nat → Nat → Nat)
    (s : PackState) : PyResult PackState :=
  match s.temp[s.curr]? with
  | none => PyResult.raised PyErr.indexError
  | some tid =>
    match sizes[tid]? with
    | none => PyResult.raised PyErr.indexError
    | some dl =>
      let s1 :=
        if s.running = 0 then
          { s with sampleIdx := s.sampleIdx ++ [(s.docIdx.length, 0)],
                   docIdx := s.docIdx ++ [tid],
                   running := s.running + dl }
        else if seqLen + 1 < s.running + dl then
          { s with running := dl,
                   sampleIdx := s.sampleIdx ++ [(s.docIdx.length, 0)],
                   docIdx := s.docIdx ++ [tid] }
        else
          { s with running := s.running + dl,
                   docIdx := s.docIdx ++ [tid] }
      let c1 := s1.curr + 1
      if c1 = numDocs then
        PyResult.ok { s1 with curr := 0,
                              temp := fisherYates (rands (2 + s1.wraps)) s1.temp,
                              wraps := s1.wraps + 1 }
      else PyResult.ok { s1 with curr := c1 }

/-- Lines 180-189: the masked-document check, guarded by `if label_dataset is not None`;
a fully `-100` prefix of length `seq_length + 1` skips the document by `curr += 1` with
no wrap check. -/
def packStepAfterChop (sizes : List Nat) (seqLen numDocs : Nat)
    (labels : Option (Nat → List Int)) (rands : Nat → Nat → Nat)
    (s : PackState) : PyResult PackState :=
  match labels with
  | none => packStepBody sizes seqLen numDocs rands s
  | some lab =>
    match s.temp[s.curr]? with
    | none => PyResult.raised PyErr.indexError
    | some tid =>
      if ((lab tid).take (seqLen + 1)).all (fun t => t == (-100 : Int)) then
        PyResult.ok { s with curr := s.curr + 1 }
      else packStepBody sizes seqLen numDocs rands s

/-- One iteration of the `pack_until_overflow` `while` body (lines 174-205), starting
with the `allow_chopped` oversize check (lines 175-179), which also skips by `curr += 1`
with no wrap check. -/
def packStep (sizes : List Nat) (seqLen numDocs : Nat) (allowChopped : Bool)
    (labels : Option (Nat → List Int)) (rands : Nat → Nat → Nat)
    (s : PackState) : PyResult PackState :=
  if allowChopped then packStepAfterChop sizes seqLen numDocs labels rands s
  else
    match s.temp[s.curr]? with
    | none => PyResult.raised PyErr.indexError
    | some tid =>
      match sizes[tid]? with
      | none => PyResult.raised PyErr.indexError
      | some sz =>
        if seqLen + 1 < sz then PyResult.ok { s with curr := s.curr + 1 }
        else packStepAfterChop sizes seqLen numDocs labels rands s

/-- `while len(sample_idx) < num_samples` (line 174), on fuel. -/
def packLoop (sizes : List Nat) (seqLen numDocs : Nat) (allowChopped : Bool)
    (labels : Option (Nat → List Int)) (rands : Nat → Nat → Nat) (numSamples : Nat) :
    Nat → PackState → LoopRes PackState
  | 0, _ => LoopRes.spin
  | fuel + 1, s =>
    if s.sampleIdx.length < numSamples then
      match packStep sizes seqLen numDocs allowChopped labels rands s with
      | PyResult.raised e => LoopRes.err e
      | PyResult.ok s1 =>
        packLoop sizes seqLen numDocs allowChopped labels rands numSamples fuel s1
    else LoopRes.done s

/-- Loop state of the `unpacked` branch (lines 217-230): `docI` = `doc_i`. -/
structure UnpackedState : Type where
  docI : Nat
  docIdx : List Nat
  deriving DecidableEq, Repr

/-- Line 226: `np.all(label_dataset.get(doc_i)[:seq_length] == -100)` — evaluated
unconditionally, so `label_dataset = None` raises `AttributeError`; then append or skip
and advance `doc_i = (doc_i + 1) % len(documents)`. -/
def unpackedStepMask (seqLen numDocs : Nat) (labels : Option (Nat → List Int))
    (s : UnpackedState) : PyResult UnpackedState :=
  match labels with
  | none => PyResult.raised PyErr.attributeError
  | some lab =>
    if numDocs = 0 then PyResult.raised PyErr.zeroDivisionError
    else if ((lab s.docI).take seqLen).all (fun t => t == (-100 : Int)) then
      PyResult.ok { s with docI := (s.docI + 1) % numDocs }
    else
      PyResult.ok { docI := (s.docI + 1) % numDocs, docIdx := s.docIdx ++ [s.docI] }

/-- One iteration of the `unpacked` `while` body (lines 219-230), starting with the
`allow_chopped` oversize check (lines 220-224). -/
def unpackedStep (sizes : List Nat) (numDocs seqLen : Nat) (allowChopped : Bool)
    (labels : Option (Nat → List Int)) (s : UnpackedState) : PyResult UnpackedState :=
  if allowChopped then unpackedStepMask seqLen numDocs labels s
  else
    match sizes[s.docI]? with
    | none => PyResult.raised PyErr.indexError
    | some sz =>
      if seqLen + 1 < sz then
        if numDocs = 0 then PyResult.raised PyErr.zeroDivisionError
        else PyResult.ok { s with docI := (s.docI + 1) % numDocs }
      else unpackedStepMask seqLen numDocs labels s

/-- `while len(doc_idx) <= num_samples` (line 219), on fuel. -/
def unpackedLoop (sizes : List Nat) (numDocs seqLen : Nat) (allowChopped : Bool)
    (labels : Option (Nat → List Int)) (numSamples : Nat) :
    Nat → UnpackedState → LoopRes UnpackedState
  | 0, _ => LoopRes.spin
  | fuel + 1, s =>
    if s.docIdx.length ≤ numSamples then
      match unpackedStep sizes numDocs seqLen allowChopped labels s with
      | PyResult.raised e => LoopRes.err e
      | PyResult.ok s1 =>
        unpackedLoop sizes numDocs seqLen allowChopped labels numSamples fuel s1
    else LoopRes.done s

/-- Locate a virtual token position inside the stream of documents named by `doc_idx`:
returns the `(doc_idx position, intra-document offset)` pair. -/
def locateGo (sizes : List Nat) : List Int → Nat → Nat → Nat × Nat
  | [], dpos, pos => (dpos, pos)
  | d :: rest, dpos, pos =>
    let sz := sizes.getD d.toNat 0
    if pos < sz then (dpos, pos) else locateGo sizes rest (dpos + 1) (pos - sz)

/-- Modelled from the spec: the `packed` branch builds `sample_idx` with the megatron
C++ helper `helpers.build_sample_idx_int32/int64` (imported on line 134), which is not
part of this repository.  Per the spec, it walks the virtual token stream implied by
`doc_idx` and the document sizes, "emitting a boundary every `seq_length` tokens", giving
`num_samples + 1` boundary pairs. -/
def build_sample_idx_packed (sizes : List Nat) (docIdx : List Int)
    (seqLen numSamples : Nat) : List (Nat × Nat) :=
  (List.range (numSamples + 1)).map (fun i => locateGo sizes docIdx 0 (i * seqLen))

/-- Observable outcome of `build_index_mappings`: the three arrays built and saved, or
a silent return with nothing saved (the dispatch chain has no `else`), or an exception,
or a loop still running when the fuel ends. -/
inductive BuildOutcome : Type
  | built (doc_idx : List Int) (sample_idx : List (Nat × Nat)) (shuffle_idx : List Nat)
  | returnedNone
  | raised (e : PyErr)
  | outOfFuel
  deriving DecidableEq, Repr

/-- `build_index_mappings` (lines 63-233), build path (cache files absent).
`numEpochsArg` is the `num_epochs` parameter (`none`/`some 0` are falsy, triggering the
`_num_epochs` computation, line 86-87).  `rands i` is the draw stream consumed by the
`i`-th shuffle call of the branch (wrap re-shuffles of `pack_until_overflow` use
`rands (2 + wraps)`). -/
def build_index_mappings (documents sizes : List Nat) (labels : Option (Nat → List Int))
    (numSamples : Nat) (numEpochsArg : Option Nat) (seqLen : Nat)
    (packingImpl : String) (allowChopped : Bool)
    (rands : Nat → Nat → Nat) (fuel : Nat) : BuildOutcome :=
  let tpe := num_tokens documents sizes
  let ne? : Option Nat :=
    match numEpochsArg with
    | some k => if k = 0 then num_epochs tpe seqLen numSamples else some k
    | none => num_epochs tpe seqLen numSamples
  match ne? with
  | none => BuildOutcome.outOfFuel
  | some numEpochs =>
    if packingImpl = "packed" then
      let doc := build_doc_idx documents numEpochs (rands 0)
      let nsp := (numEpochs * tpe - 1) / seqLen
      let sample := build_sample_idx_packed sizes doc seqLen nsp
      BuildOutcome.built doc sample (build_shuffle_idx (sample.length - 1) (rands 2))
    else if packingImpl = "pack_until_overflow" then
      let sh := fisherYates (rands 0) (List.range numSamples)
      let temp0 := fisherYates (rands 1) (List.range documents.length)
      match packLoop sizes seqLen documents.length allowChopped labels rands numSamples
          fuel { temp := temp0, curr := 0, running := 0, docIdx := [],
                 sampleIdx := [], wraps := 0 } with
      | LoopRes.done s =>
        BuildOutcome.built (s.docIdx.map (fun n => (n : Int)))
          (s.sampleIdx ++ [(s.docIdx.length, 0)]) sh
      | LoopRes.err e => BuildOutcome.raised e
      | LoopRes.spin => BuildOutcome.outOfFuel
    else if packingImpl = "unpacked" then
      let sh := fisherYates (rands 0) (List.range numSamples)
      let sample := (List.range (numSamples + 1)).map (fun i => (i, 0))
      match unpackedLoop sizes documents.length seqLen allowChopped labels numSamples
          fuel { docI := 0, docIdx := [] } with
      | LoopRes.done s =>
        BuildOutcome.built (s.docIdx.map (fun n => (n : Int))) sample sh
      | LoopRes.err e => BuildOutcome.raised e
      | LoopRes.spin => BuildOutcome.outOfFuel
    else BuildOutcome.returnedNone

/-! ## Corpus store, sample assembler and injector

The class that implements these operations, `WriteableMMapIndexedDataset` with
`get_example_by_id` and `inject_example_into_corpus` (in `tokensmith/utils.py`), is not
under `src/`; only its callers are (`src/tokensmith/edit/handler.py`,
`src/tokensmith/manager.py`).  The definitions of this section are therefore modelled
from the spec (§4.3 Corpus Store, §4.4 Sample Assembler, §4.5 Corpus Editor / Injector),
and carry a `Modelled from the spec` note. -/

/-- Modelled from the spec: an indexed corpus — the Corpus Store's documents (token
sequences) plus the three immutable index arrays.  `sampleIdx` entries are
`(doc_idx position, intra-document token offset)` pairs. -/
structure IndexedCorpus : Type where
  store : List (List Nat)
  docIdx : List Nat
  sampleIdx : List (Nat × Nat)
  shuffleIdx : List Nat
  deriving DecidableEq, Repr

/-- Modelled from the spec: the outcome part of an injection record — which document was
touched, at which token offset, and the old/new token segment at the splice site. -/
structure InjectionRecord : Type where
  targetDoc : Nat
  offset : Nat
  oldSegment : List Nat
  newSegment : List Nat
  deriving DecidableEq, Repr

/-- The two injection kinds of `EditHandler.inject_and_preview`: `seq_start` (prepend)
and `seq_shuffle` (splice into a random contributing segment). -/
inductive InjectionKind : Type
  | seqStart
  | seqShuffle
  deriving DecidableEq, Repr

/-- Modelled from the spec (§4.4): walk `doc_idx[p .. p+cnt]` inclusive, taking
`[so, size)` from the first document, full spans from interior documents and `[0, eo)`
from the last, one segment per contributing document. -/
def assembleGo (c : IndexedCorpus) (eo : Nat) : Nat → Nat → Nat → Option (List (List Nat))
  | 0, p, so => do
    let d ← c.docIdx[p]?
    let doc ← c.store[d]?
    some [(doc.take eo).drop so]
  | cnt + 1, p, so => do
    let d ← c.docIdx[p]?
    let doc ← c.store[d]?
    let rest ← assembleGo c eo cnt (p + 1) 0
    some (doc.drop so :: rest)

/-- Modelled from the spec (§4.4): `assemble(sample_ordinal)` =
`shuffle_idx[ordinal]` → `sample_idx[physical]`, `sample_idx[physical+1]` → segments. -/
def assemble (c : IndexedCorpus) (ordinal : Nat) : Option (List (List Nat)) := do
  let phys ← c.shuffleIdx[ordinal]?
  let se ← c.sampleIdx[phys]?
  let ee ← c.sampleIdx[phys + 1]?
  if se.1 ≤ ee.1 then assembleGo c ee.2 (ee.1 - se.1) se.1 se.2 else none

/-- Modelled from the spec (§4.5): resolve the document id and intra-document offset an
injection writes at.  `seq_start` targets the leading tokens of the first contributing
segment; `seq_shuffle` picks a contributing segment via draw `r1` and an offset inside
it via draw `r2`. -/
def injectTarget (c : IndexedCorpus) (ordinal : Nat) (kind : InjectionKind)
    (r1 r2 : Nat) : Option (Nat × Nat) := do
  let phys ← c.shuffleIdx[ordinal]?
  let se ← c.sampleIdx[phys]?
  let ee ← c.sampleIdx[phys + 1]?
  match kind with
  | InjectionKind.seqStart => do
    let d ← c.docIdx[se.1]?
    some (d, se.2)
  | InjectionKind.seqShuffle => do
    let k := r1 % (ee.1 - se.1 + 1)
    let d ← c.docIdx[se.1 + k]?
    let doc ← c.store[d]?
    let segStart := if k = 0 then se.2 else 0
    let segStop := if se.1 + k = ee.1 then ee.2 else doc.length
    let segLen := segStop - segStart
    some (d, segStart + (if segLen = 0 then 0 else r2 % segLen))

/-- Modelled from the spec (§4.3/§4.5): `overwrite_document_range` as a splice — the
payload overwrites the byte range starting at `off` in document `d`. -/
def overwriteDocRange (store : List (List Nat)) (d off : Nat) (payload : List Nat) :
    Option (List (List Nat)) := do
  let doc ← store[d]?
  some (store.set d (doc.take off ++ payload ++ doc.drop (off + payload.length)))

/-- Modelled from the spec (§4.5): compute the mutated in-memory copy of the store and
the injection record (old and new segment at the splice site), without committing. -/
def injectCompute (c : IndexedCorpus) (ordinal : Nat) (payload : List Nat)
    (kind : InjectionKind) (r1 r2 : Nat) : Option (List (List Nat) × InjectionRecord) := do
  let t ← injectTarget c ordinal kind r1 r2
  let doc ← c.store[t.1]?
  let newStore ← overwriteDocRange c.store t.1 t.2 payload
  let newDoc ← newStore[t.1]?
  some (newStore,
    { targetDoc := t.1, offset := t.2,
      oldSegment := (doc.take (t.2 + payload.length)).drop t.2,
      newSegment := (newDoc.take (t.2 + payload.length)).drop t.2 })

/-- Modelled from the spec (§4.5): `inject_example_into_corpus`.  With `dry_run` the
store is left untouched and the record reports the simulated splice; otherwise the
mutated store is committed (the index arrays are never touched). -/
def inject_example_into_corpus (c : IndexedCorpus) (ordinal : Nat) (payload : List Nat)
    (kind : InjectionKind) (r1 r2 : Nat) (dryRun : Bool) :
    Option (IndexedCorpus × InjectionRecord) :=
  match injectCompute c ordinal payload kind r1 r2 with
  | none => none
  | some (newStore, rec) =>
    if dryRun then some (c, rec)
    else some ({ c with store := newStore }, rec)

/-- The structured report of `EditHandler.inject_and_preview`
(src/tokensmith/edit/handler.py lines 103-150): the original sample, the sample re-read
after the injection call (both concatenated, `np.concatenate`), and the injection
details. -/
structure PreviewReport : Type where
  originalSample : List Nat
  modifiedSample : List Nat
  details : InjectionRecord
  deriving DecidableEq, Repr

/-- `EditHandler.inject_and_preview` over the modelled dataset: read the sample, call
`inject_example_into_corpus`, re-read the sample, and report.  The tokenisation of the
payload text is outside this model (the payload is already a token list). -/
def inject_and_preview (c : IndexedCorpus) (ordinal : Nat) (payload : List Nat)
    (kind : InjectionKind) (r1 r2 : Nat) (dryRun : Bool) :
    Option (IndexedCorpus × PreviewReport) :=
  match assemble c ordinal with
  | none => none
  | some orig =>
    match inject_example_into_corpus c ordinal payload kind r1 r2 dryRun with
    | none => none
    | some res =>
      match assemble res.1 ordinal with
      | none => none
      | some edited =>
        some (res.1,
          { originalSample := orig.flatten, modifiedSample := edited.flatten,
            details := res.2 })

/-- A small concrete indexed corpus used by witnesses. -/
def exampleCorpus : IndexedCorpus :=
  { store := [[1, 2, 3], [9, 9]], docIdx := [0, 1],
    sampleIdx := [(0, 0), (1, 0)], shuffleIdx := [0] }

/-- A concrete all-zero draw stream, used for concrete evaluations. -/
def randZero : Nat → Nat := fun _ => 0

/-- A concrete all-zero draw-stream family, used for concrete evaluations. -/
def randsZero : Nat → Nat → Nat := fun _ _ => 0

/-- A draw stream under which the single global shuffle of `build_doc_idx` moves a
document id across the epoch boundary (swaps positions 3 and 0). -/
def docCrossDraw : Nat → Nat := fun i => if i = 3 then 0 else i

/-! ## Lemmas: the shuffle is a permutation -/

theorem count_set_add {α : Type} [DecidableEq α] (x c a : α) :
    ∀ (l : List α) (n : Nat), l[n]? = some a →
      (l.set n c).count x + (if a = x then 1 else 0)
        = l.count x + (if c = x then 1 else 0) := by
  intro l
  induction l with
  | nil => intro n h; simp at h
  | cons hd tl ih =>
    intro n h
    cases n with
    | zero =>
      simp only [List.getElem?_cons_zero, Option.some.injEq] at h
      subst h
      simp only [List.set_cons_zero, List.count_cons, beq_iff_eq]
      by_cases h1 : c = x <;> by_cases h2 : hd = x <;> simp [h1, h2]
    | succ m =>
      simp only [List.getElem?_cons_succ] at h
      simp only [List.set_cons_succ, List.count_cons, beq_iff_eq]
      have := ih m h
      by_cases h2 : hd = x <;> simp [h2] <;> omega

theorem listSwap_perm {α : Type} [DecidableEq α] (l : List α) (i j : Nat) :
    (listSwap l i j).Perm l := by
  unfold listSwap
  cases hi : l[i]? with
  | none => exact List.Perm.refl l
  | some a =>
    cases hj : l[j]? with
    | none => exact List.Perm.refl l
    | some b =>
      show ((l.set i b).set j a).Perm l
      rw [List.perm_iff_count]
      intro x
      have hil : i < l.length := by
        by_contra hc
        rw [List.getElem?_eq_none (by omega)] at hi
        exact Option.noConfusion hi
      have hset : (l.set i b)[j]? = some b := by
        by_cases hij : i = j
        · subst hij
          rw [List.getElem?_set_self hil]
        · rw [List.getElem?_set_ne hij]
          exact hj
      have h1 := count_set_add x b a l i hi
      have h2 := count_set_add x a b (l.set i b) j hset
      have h3 := h2.trans h1
      omega

theorem fyAux_perm {α : Type} [DecidableEq α] (draw : Nat → Nat) (k : Nat) :
    ∀ (l : List α), (fyAux draw l k).Perm l := by
  induction k with
  | zero => intro l; exact List.Perm.refl l
  | succ n ih =>
    intro l
    exact (ih _).trans (listSwap_perm l (n + 1) (draw (n + 1) % (n + 2)))

theorem fisherYates_perm {α : Type} [DecidableEq α] (draw : Nat → Nat) (l : List α) :
    (fisherYates draw l).Perm l :=
  fyAux_perm draw (l.length - 1) l

theorem sortNat_fisherYates_range (draw : Nat → Nat) (n : Nat) :
    sortNat (fisherYates draw (List.range n))
      = List.range ((fisherYates draw (List.range n)).length) := by
  have hlen : (fisherYates draw (List.range n)).length = n := by
    rw [(fisherYates_perm draw (List.range n)).length_eq, List.length_range]
  rw [hlen]
  have hperm : (sortNat (fisherYates draw (List.range n))).Perm (List.range n) :=
    (List.mergeSort_perm _ _).trans (fisherYates_perm _ _)
  have hs1 : List.Sorted (· ≤ ·) (sortNat (fisherYates draw (List.range n))) := by
    refine (List.sorted_mergeSort ?_ ?_ _).imp (fun h => by exact of_decide_eq_true h)
    · intro a b c hab hbc
      simp only [decide_eq_true_eq] at hab hbc ⊢
      omega
    · intro a b
      rcases Nat.le_total a b with h | h <;> simp [h]
  have hs2 : List.Sorted (· ≤ ·) (List.range n) :=
    (List.pairwise_lt_range n).imp (fun h => Nat.le_of_lt h)
  exact List.eq_of_perm_of_sorted hperm hs1 hs2

/-! ## Lemmas for `build_doc_idx` counts -/

theorem length_flatten_replicate {α : Type} (e : Nat) (l : List α) :
    ((List.replicate e l).flatten).length = e * l.length := by
  induction e with
  | zero => simp
  | succ n ih =>
    simp only [List.replicate_succ, List.flatten_cons, List.length_append, ih]
    ring

theorem count_flatten_replicate {α : Type} [DecidableEq α] (e : Nat) (l : List α) (x : α) :
    ((List.replicate e l).flatten).count x = e * l.count x := by
  induction e with
  | zero => simp
  | succ n ih =>
    simp only [List.replicate_succ, List.flatten_cons, List.count_append, ih]
    ring

theorem astypeInt32_small (n : Nat) (h : n < 2 ^ 31) : astypeInt32 n = (n : Int) := by
  unfold astypeInt32
  rw [Nat.mod_eq_of_lt (by omega)]
  push_cast
  ring

/-- C1: for the `packed` policy, on a non-empty duplicate-free document-id list with
`num_epochs ≥ 1` and any generator draws, `_build_doc_idx` yields an array of length
`num_epochs * num_documents` that is a permutation of the full concatenation of the
`num_epochs` epoch copies (one single shuffle over the whole flattened array), hence
contains each document id exactly `num_epochs` times; and the single global shuffle does
cross epoch boundaries (for the exhibited draws the first epoch slice of the result is
`[1, 1]`, not a per-epoch permutation of `[0, 1]`). -/
theorem claim1_build_doc_idx (documents : List Nat) (numEpochs : Nat) (draw : Nat → Nat)
    (hne : documents ≠ []) (hep : 1 ≤ numEpochs) (hnd : documents.Nodup)
    (hsm : ∀ d ∈ documents, d < 2 ^ 31) :
    (build_doc_idx documents numEpochs draw).length = numEpochs * documents.length ∧
    (build_doc_idx documents numEpochs draw).Perm
      (((List.replicate numEpochs documents).flatten).map astypeInt32) ∧
    (∀ d ∈ documents,
      (build_doc_idx documents numEpochs draw).count (astypeInt32 d) = numEpochs) ∧
    (build_doc_idx [0, 1] 2 docCrossDraw).take 2 = [1, 1] := by
  have hperm : (build_doc_idx documents numEpochs draw).Perm
      (((List.replicate numEpochs documents).flatten).map astypeInt32) :=
    fisherYates_perm _ _
  refine ⟨?_, hperm, ?_, by decide⟩
  · rw [hperm.length_eq, List.length_map, length_flatten_replicate]
  · intro d hd
    rw [hperm.count_eq]
    have hmap : ((List.replicate numEpochs documents).flatten).map astypeInt32
        = ((List.replicate numEpochs documents).flatten).map (Nat.cast : Nat → Int) := by
      apply List.map_congr_left
      intro m hm
      obtain ⟨l2, hl2, hml⟩ := List.mem_flatten.mp hm
      rw [List.eq_of_mem_replicate hl2] at hml
      exact astypeInt32_small m (hsm m hml)
    rw [hmap, astypeInt32_small d (hsm d hd),
      List.count_map_of_injective _ (Nat.cast : Nat → Int) Nat.cast_injective d,
      count_flatten_replicate, List.count_eq_one_of_mem hnd hd, mul_one]

/-- Witness for C1 at `documents = [10, 20]`, `num_epochs = 2`, the all-zero draw
stream. -/
theorem claim1_witness :
    (build_doc_idx [10, 20] 2 randZero).length = 2 * ([10, 20] : List Nat).length :=
  (claim1_build_doc_idx [10, 20] 2 randZero (by decide) (by decide) (by decide)
    (by decide)).1

/-- C9 counterexample: an item count of `2^31 = 2147483648` exceeds the signed 32-bit
range (max `2147483647`), yet `_build_shuffle_idx` still selects the 32-bit
(`np.uint32`) element type: the upgrade threshold in the code is
`np.iinfo(np.uint32).max - 1 = 2^32 - 2`, not the signed 32-bit range. -/
theorem claim9_counterexample :
    shuffle_idx_dtype 2147483648 = NpDtype.uint32 ∧ 2147483647 < 2147483648 := by
  exact ⟨by decide, by decide⟩

/-- C9 amended: the `shuffle_idx` element type is the 32-bit `np.uint32` exactly when
the item count is below `2^32 - 2` (one less than the unsigned 32-bit maximum), and
`np.int64` otherwise; the decision is per-array, from that array's own item count, and
every stored value is below the item count, hence representable in the selected type. -/
theorem claim9_dtype (size : Nat) (draw : Nat → Nat) :
    (shuffle_idx_dtype size = NpDtype.uint32 ↔ size < 2 ^ 32 - 2) ∧
    ∀ x ∈ build_shuffle_idx size draw, x < size := by
  constructor
  · unfold shuffle_idx_dtype
    split_ifs with h
    · exact ⟨fun hh => absurd hh (by decide), fun hlt => absurd h (by omega)⟩
    · exact ⟨fun _ => by omega, fun _ => rfl⟩
  · intro x hx
    exact List.mem_range.mp ((fisherYates_perm draw (List.range size)).mem_iff.mp hx)

/-- Witness for C9's amended statement at `size = 3`, all-zero draws, element `2`. -/
theorem claim9_witness : shuffle_idx_dtype 3 = NpDtype.uint32 ∧ 2 < 3 :=
  ⟨(claim9_dtype 3 randZero).1.mpr (by decide), (claim9_dtype 3 randZero).2 2 (by decide)⟩

/-! ## Lemmas for `_num_epochs` -/

theorem fdiv_cast_eq (m k : Nat) : ((m : Int)).fdiv (k : Int) = ((m / k : Nat) : Int) :=
  (Int.ofNat_fdiv m k).symm

theorem numEpochsCond (ns sl t : Nat) (ht : 1 ≤ t) :
    ((ns : Int) ≤ ((t : Int) - 1).fdiv (sl : Int)) ↔ ns ≤ (t - 1) / sl := by
  have h1 : (t : Int) - 1 = ((t - 1 : Nat) : Int) := by omega
  rw [h1, fdiv_cast_eq]
  exact_mod_cast Iff.rfl

theorem numEpochsGo_spec (tpe sl ns : Nat) (htpe : 1 ≤ tpe) :
    ∀ (fuel ne n : Nat), numEpochsGo tpe sl ns fuel ne (ne * tpe) = some n →
      ne < n ∧ ns ≤ (n * tpe - 1) / sl ∧
      ∀ m, ne < m → m < n → (m * tpe - 1) / sl < ns := by
  intro fuel
  induction fuel with
  | zero => intro ne n h; simp [numEpochsGo] at h
  | succ f ih =>
    intro ne n h
    simp only [numEpochsGo] at h
    rw [show ne * tpe + tpe = (ne + 1) * tpe by ring] at h
    have hcond := numEpochsCond ns sl ((ne + 1) * tpe) (Nat.mul_pos (Nat.succ_pos ne) htpe)
    split_ifs at h with hc
    · cases h
      refine ⟨Nat.lt_succ_self ne, hcond.mp hc, ?_⟩
      intro m hm1 hm2
      omega
    · obtain ⟨h1, h2, h3⟩ := ih (ne + 1) n h
      refine ⟨by omega, h2, ?_⟩
      intro m hm1 hm2
      by_cases hme : m = ne + 1
      · subst hme
        rw [hcond] at hc
        omega
      · exact h3 m (by omega) hm2

theorem numEpochsGo_term (tpe sl ns : Nat) (htpe : 1 ≤ tpe) :
    ∀ (fuel ne j : Nat), 1 ≤ j → j ≤ fuel →
      ns ≤ ((ne + j) * tpe - 1) / sl →
      (numEpochsGo tpe sl ns fuel ne (ne * tpe)).isSome := by
  intro fuel
  induction fuel with
  | zero => intro ne j h1 h2 _; omega
  | succ f ih =>
    intro ne j h1 h2 hp
    simp only [numEpochsGo]
    rw [show ne * tpe + tpe = (ne + 1) * tpe by ring]
    split_ifs with hc
    · simp
    · have hcond := numEpochsCond ns sl ((ne + 1) * tpe) (Nat.mul_pos (Nat.succ_pos ne) htpe)
      rw [hcond] at hc
      have hj : j ≠ 1 := by
        rintro rfl
        exact hc (by simpa using hp)
      have hstep := ih (ne + 1) (j - 1) (by omega) (by omega)
        (by rw [show ne + 1 + (j - 1) = ne + j by omega]; exact hp)
      exact hstep

/-- C6: for `tokens_per_epoch ≥ 1` and `seq_length ≥ 1`, `_num_epochs` terminates and
returns the smallest positive integer `n` with
`(n * tokens_per_epoch - 1) / seq_length ≥ num_samples` (integer floor division). -/
theorem claim6_num_epochs (tpe sl ns : Nat) (htpe : 1 ≤ tpe) (hsl : 1 ≤ sl) :
    ∃ n, num_epochs tpe sl ns = some n ∧ 1 ≤ n ∧ ns ≤ (n * tpe - 1) / sl ∧
      ∀ m, 1 ≤ m → m < n → (m * tpe - 1) / sl < ns := by
  have hp : ns ≤ ((0 + (ns * sl + 1)) * tpe - 1) / sl := by
    rw [Nat.zero_add, Nat.le_div_iff_mul_le hsl]
    have h1 : ns * sl + 1 ≤ (ns * sl + 1) * tpe := Nat.le_mul_of_pos_right _ htpe
    omega
  have hterm := numEpochsGo_term tpe sl ns htpe (ns * sl + 1) 0 (ns * sl + 1)
    (by omega) (le_refl _) hp
  rw [Nat.zero_mul] at hterm
  obtain ⟨n, hn⟩ := Option.isSome_iff_exists.mp hterm
  have hspec := numEpochsGo_spec tpe sl ns htpe (ns * sl + 1) 0 n
    (by rw [Nat.zero_mul]; exact hn)
  exact ⟨n, hn, hspec.1, hspec.2.1, fun m hm1 hm2 => hspec.2.2 m (by omega) hm2⟩

/-- Witness for C6 at `tokens_per_epoch = 5`, `seq_length = 2`, `num_samples = 3`
(the smallest such epoch count is `2`). -/
theorem claim6_witness : (num_epochs 5 2 3).isSome = true := by
  obtain ⟨n, hn, -, -, -⟩ := claim6_num_epochs 5 2 3 (by decide) (by decide)
  rw [hn]
  rfl

/-! ## Lemmas for `get_train_valid_test_split_` -/

theorem cumBounds_length (size : Nat) :
    ∀ (l : List ℚ) (acc : ℤ), (cumBounds size l acc).length = l.length := by
  intro l
  induction l with
  | nil => intro acc; rfl
  | cons a t ih => intro acc; simp only [cumBounds, List.length_cons, ih]

theorem pyRound_intCast (z : ℤ) : pyRound ((z : ℚ)) = z := by
  simp only [pyRound, Rat.num_intCast, Rat.den_intCast, Nat.cast_one, Int.fdiv_one]
  rw [sub_self]
  norm_num

theorem getLastD_map_sub (diff : ℤ) :
    ∀ (l : List ℤ), l ≠ [] → ∀ (d1 d2 : ℤ),
      (l.map (fun b => b - diff)).getLastD d1 = l.getLastD d2 - diff := by
  intro l
  induction l with
  | nil => intro h; exact absurd rfl h
  | cons a t ih =>
    intro _ d1 d2
    cases t with
    | nil => rfl
    | cons b t2 =>
      rw [List.map_cons, List.getLastD_cons, List.getLastD_cons]
      exact ih (by simp) _ _

/-- C5: for any parsed ratio list whose padded three-entry form has positive sum and any
document count `size`, `get_train_valid_test_split_` returns four cumulative boundaries
that start at `0` and end exactly at `size` (the accumulated rounding error is
subtracted so the final boundary equals `size`); in particular ratio `[969, 30, 1]` with
`size = 1000` yields `[0, 969, 999, 1000]`. -/
theorem claim5_split (splits0 : List ℚ) (size : Nat)
    (hpos : 0 < ((splits0 ++ List.replicate (3 - splits0.length) 0).take 3).sum) :
    (∃ idx, get_train_valid_test_split_ splits0 size = some idx ∧ idx.length = 4 ∧
      idx.head? = some 0 ∧ idx.getLastD 0 = (size : ℤ)) ∧
    get_train_valid_test_split_ [969, 30, 1] 1000 = some [0, 969, 999, 1000] := by
  constructor
  · simp only [get_train_valid_test_split_]
    rw [if_pos hpos]
    have hplen : ((splits0 ++ List.replicate (3 - splits0.length) 0).take 3).length = 3 := by
      rw [List.length_take, List.length_append, List.length_replicate]
      omega
    have hclen : (cumBounds size
        (((splits0 ++ List.replicate (3 - splits0.length) 0).take 3).map
          (fun sp => sp / ((splits0 ++ List.replicate (3 - splits0.length) 0).take 3).sum))
        0).length = 3 := by
      rw [cumBounds_length, List.length_map, hplen]
    have hcne : cumBounds size
        (((splits0 ++ List.replicate (3 - splits0.length) 0).take 3).map
          (fun sp => sp / ((splits0 ++ List.replicate (3 - splits0.length) 0).take 3).sum))
        0 ≠ [] := by
      intro hnil
      rw [hnil] at hclen
      simp at hclen
    refine ⟨_, rfl, ?_, rfl, ?_⟩
    · simp only [List.length_cons, List.length_map, hclen]
    · rw [List.getLastD_cons, getLastD_map_sub _ _ hcne _ 0]
      ring
  · have hpad : (([969, 30, 1] : List ℚ)
        ++ List.replicate (3 - ([969, 30, 1] : List ℚ).length) 0).take 3
        = [969, 30, 1] := by norm_num
    simp only [get_train_valid_test_split_, hpad]
    have hsum : ([969, 30, 1] : List ℚ).sum = 1000 := by norm_num
    rw [hsum, if_pos (by norm_num : (0 : ℚ) < 1000)]
    have hmap : ([969, 30, 1] : List ℚ).map (fun sp => sp / 1000)
        = [969 / 1000, 30 / 1000, 1 / 1000] := by norm_num
    rw [hmap]
    have h1 : pyRound ((969 : ℚ)) = 969 := by
      rw [show (969 : ℚ) = ((969 : ℤ) : ℚ) by norm_num]
      exact pyRound_intCast 969
    have h2 : pyRound ((30 : ℚ)) = 30 := by
      rw [show (30 : ℚ) = ((30 : ℤ) : ℚ) by norm_num]
      exact pyRound_intCast 30
    have h3 : pyRound ((1 : ℚ)) = 1 := by
      rw [show (1 : ℚ) = ((1 : ℤ) : ℚ) by norm_num]
      exact pyRound_intCast 1
    simp only [cumBounds]
    norm_num [List.getLastD_cons, h1, h2, h3]

/-- Witness for C5 at ratios `[8, 1, 1]` and `size = 10`. -/
theorem claim5_witness : (get_train_valid_test_split_ [8, 1, 1] 10).isSome = true := by
  obtain ⟨idx, hidx, -, -, -⟩ := (claim5_split [8, 1, 1] 10 (by norm_num)).1
  rw [hidx]
  rfl

/-! ## Lemmas for `build_index_mappings` -/

theorem unpackedLoop_spin (sizes : List Nat) (numDocs seqLen : Nat) (allowChopped : Bool)
    (labels : Option (Nat → List Int)) (numSamples : Nat) (s : UnpackedState)
    (hstep : unpackedStep sizes numDocs seqLen allowChopped labels s = PyResult.ok s)
    (hcond : s.docIdx.length ≤ numSamples) :
    ∀ fuel, unpackedLoop sizes numDocs seqLen allowChopped labels numSamples fuel s
      = LoopRes.spin := by
  intro fuel
  induction fuel with
  | zero => rfl
  | succ f ih =>
    simp only [unpackedLoop]
    rw [if_pos hcond, hstep]
    exact ih

/-- C2: for every packing policy and every generator behaviour, whenever
`build_index_mappings` builds and saves its arrays, the `shuffle_idx` array is a
permutation of `[0, n)` for `n` its length: sorting it yields exactly
`0, 1, …, n-1`. -/
theorem claim2_shuffle_idx_perm (documents sizes : List Nat)
    (labels : Option (Nat → List Int)) (numSamples : Nat) (numEpochsArg : Option Nat)
    (seqLen : Nat) (packingImpl : String) (allowChopped : Bool)
    (rands : Nat → Nat → Nat) (fuel : Nat)
    (d : List Int) (s : List (Nat × Nat)) (sh : List Nat)
    (h : build_index_mappings documents sizes labels numSamples numEpochsArg seqLen
      packingImpl allowChopped rands fuel = BuildOutcome.built d s sh) :
    sortNat sh = List.range sh.length := by
  simp only [build_index_mappings] at h
  split at h
  · exact BuildOutcome.noConfusion h
  · split at h
    · injection h with h1 h2 h3
      subst h3
      exact sortNat_fisherYates_range _ _
    · split at h
      · split at h
        · injection h with h1 h2 h3
          subst h3
          exact sortNat_fisherYates_range _ _
        · exact BuildOutcome.noConfusion h
        · exact BuildOutcome.noConfusion h
      · split at h
        · split at h
          · injection h with h1 h2 h3
            subst h3
            exact sortNat_fisherYates_range _ _
          · exact BuildOutcome.noConfusion h
          · exact BuildOutcome.noConfusion h
        · exact BuildOutcome.noConfusion h

/-- Witness for C2: a concrete `unpacked` build that returns arrays. -/
theorem claim2_witness : sortNat [0] = List.range ([0] : List Nat).length :=
  claim2_shuffle_idx_perm [0, 1] [1, 1] (some fun _ => [0]) 1 (some 1) 1 "unpacked" true
    randsZero 10 [0, 1] [(0, 0), (1, 0)] [0] (by decide)

/-- C3 is false of the code (the spec records the intended `ExhaustedCorpus` behaviour):
with every document skippable, the `unpacked` walk of `build_index_mappings` never
terminates — for every fuel it is still spinning, with no error raised and no arrays
built (documents `[0]`, sizes `[5]`, `seq_length 1`, `allow_chopped` false: the single
document is oversized and is skipped forever) — and the `pack_until_overflow` walk
instead crashes with an `IndexError` (no bounded retry budget, no `ExhaustedCorpus`). -/
theorem claim3_no_exhausted_corpus :
    (∀ fuel, build_index_mappings [0] [5] (some fun _ => [0]) 0 (some 1) 1 "unpacked"
      false randsZero fuel = BuildOutcome.outOfFuel) ∧
    build_index_mappings [0] [5] (some fun _ => [0]) 1 (some 1) 1 "pack_until_overflow"
      false randsZero 20 = BuildOutcome.raised PyErr.indexError := by
  constructor
  · intro fuel
    have hspin := unpackedLoop_spin [5] 1 1 false (some fun _ => [0]) 0
      { docI := 0, docIdx := [] } (by decide) (by decide) fuel
    simp [build_index_mappings, hspin]
  · decide

/-- C7 is false of the code (the spec records the intended `InvalidConfiguration`
behaviour): with the cache absent and a `packing_impl` that is none of `"packed"`,
`"pack_until_overflow"`, `"unpacked"`, `build_index_mappings` silently returns without
building or persisting any index array (the dispatch chain has no `else` branch), rather
than failing. -/
theorem claim7_unknown_policy (documents sizes : List Nat)
    (labels : Option (Nat → List Int)) (numSamples k seqLen : Nat)
    (packingImpl : String) (allowChopped : Bool) (rands : Nat → Nat → Nat) (fuel : Nat)
    (hk : k ≠ 0) (h1 : packingImpl ≠ "packed") (h2 : packingImpl ≠ "pack_until_overflow")
    (h3 : packingImpl ≠ "unpacked") :
    build_index_mappings documents sizes labels numSamples (some k) seqLen packingImpl
      allowChopped rands fuel = BuildOutcome.returnedNone := by
  simp [build_index_mappings, hk, h1, h2, h3]

/-- Witness for C7 at the unknown policy string `"bogus"`. -/
theorem claim7_witness :
    build_index_mappings [0] [1] none 1 (some 1) 1 "bogus" true randsZero 5
      = BuildOutcome.returnedNone :=
  claim7_unknown_policy [0] [1] none 1 1 1 "bogus" true randsZero 5
    (by decide) (by decide) (by decide) (by decide)

/-- C8 is false of the code (the spec records the intended cyclic visiting): under
`pack_until_overflow` the skip paths advance `curr_shuffle_idx` with no wrap check, so a
skip at the last position of the shuffled order sends the visiting index out of bounds
and the next access raises `IndexError` (documents `[0, 1]`, both of size `10`,
`seq_length 1`, `allow_chopped` false: both documents are oversized, the second skip
leaves `curr_shuffle_idx = 2`). -/
theorem claim8_skip_out_of_bounds :
    build_index_mappings [0, 1] [10, 10] none 1 (some 1) 1 "pack_until_overflow" false
      randsZero 10 = BuildOutcome.raised PyErr.indexError := by
  decide

/-- C10 amended: under `unpacked` the masked-document check is unguarded, so whenever
the loop body reaches it (in particular whenever `allow_chopped` is true) a `None`
`label_dataset` raises an exception before any index arrays are built; if
`allow_chopped` is false and every document is oversized, the loop instead spins forever
without raising.  Under `pack_until_overflow` the check is guarded and a `None`
`label_dataset` is accepted. -/
theorem claim10_label_guard :
    (∀ (documents sizes : List Nat) (numSamples seqLen k : Nat)
        (rands : Nat → Nat → Nat) (fuel : Nat), 1 ≤ fuel → 1 ≤ k →
      build_index_mappings documents sizes none numSamples (some k) seqLen "unpacked"
        true rands fuel = BuildOutcome.raised PyErr.attributeError) ∧
    (∀ fuel, unpackedLoop [5] 1 1 false none 0 fuel { docI := 0, docIdx := [] }
      = LoopRes.spin) ∧
    build_index_mappings [0] [1] none 1 (some 1) 1 "pack_until_overflow" true randsZero
      10 = BuildOutcome.built [0] [(0, 0), (1, 0)] [0] := by
  refine ⟨?_, ?_, by decide⟩
  · intro documents sizes numSamples seqLen k rands fuel hfuel hk
    obtain ⟨f, rfl⟩ : ∃ f, fuel = f + 1 := ⟨fuel - 1, by omega⟩
    have hk0 : ¬(k = 0) := by omega
    have hloop : unpackedLoop sizes documents.length seqLen true none numSamples (f + 1)
        { docI := 0, docIdx := [] } = LoopRes.err PyErr.attributeError := by
      simp [unpackedLoop, unpackedStep, unpackedStepMask]
    simp [build_index_mappings, hk0, hloop]
  · intro fuel
    exact unpackedLoop_spin [5] 1 1 false none 0 { docI := 0, docIdx := [] }
      (by decide) (by decide) fuel

/-- Witness for C10's amended statement: a dry run of the `unpacked` branch with
`label_dataset = None` raises before building anything. -/
theorem claim10_witness :
    build_index_mappings [0] [1] none 0 (some 1) 1 "unpacked" true randsZero 5
      = BuildOutcome.raised PyErr.attributeError :=
  claim10_label_guard.1 [0] [1] 0 1 1 randsZero 5 (by decide) (by decide)

/-- C10 counterexample to the claim as stated ("for every input with `label_dataset`
equal to `None` it fails with an exception"): with `allow_chopped` false and the single
document oversized (documents `[0]`, sizes `[5]`, `seq_length 1`), the loop body maps
its start state to itself without raising — the walk spins forever, so no exception is
ever raised and no arrays are ever produced. -/
theorem claim10_counterexample :
    unpackedStep [5] 1 1 false none { docI := 0, docIdx := [] }
      = PyResult.ok { docI := 0, docIdx := [] } ∧
    build_index_mappings [0] [5] none 0 (some 1) 1 "unpacked" false randsZero 100
      = BuildOutcome.outOfFuel := by
  exact ⟨by decide, by decide⟩

/-- C4: a dry-run injection leaves the stored corpus unchanged — the corpus returned by
`inject_and_preview` with `dry_run` is the input corpus, and the re-read sample equals
the original sample — while the returned record still reports the change that would have
been made: the simulated splice `injectCompute` succeeds, its record is the one
reported, and a wet run with the same arguments commits exactly that simulated store and
returns the identical record (leaving all three index arrays untouched). -/
theorem claim4_dry_run_frame (c : IndexedCorpus) (ordinal : Nat) (payload : List Nat)
    (kind : InjectionKind) (r1 r2 : Nat) (out : IndexedCorpus × PreviewReport)
    (h : inject_and_preview c ordinal payload kind r1 r2 true = some out) :
    out.1 = c ∧ out.2.modifiedSample = out.2.originalSample ∧
    ∃ newStore rec, injectCompute c ordinal payload kind r1 r2 = some (newStore, rec) ∧
      out.2.details = rec ∧
      inject_example_into_corpus c ordinal payload kind r1 r2 false
        = some ({ c with store := newStore }, rec) := by
  simp only [inject_and_preview] at h
  cases hassem : assemble c ordinal with
  | none => rw [hassem] at h; simp at h
  | some orig =>
    cases hcomp : injectCompute c ordinal payload kind r1 r2 with
    | none =>
      have hinj : inject_example_into_corpus c ordinal payload kind r1 r2 true = none := by
        simp [inject_example_into_corpus, hcomp]
      rw [hassem, hinj] at h
      simp at h
    | some pr =>
      obtain ⟨newStore, rec⟩ := pr
      have hinj : inject_example_into_corpus c ordinal payload kind r1 r2 true
          = some (c, rec) := by
        simp [inject_example_into_corpus, hcomp]
      rw [hassem, hinj] at h
      simp only at h
      rw [hassem] at h
      simp only [Option.some.injEq] at h
      subst h
      refine ⟨rfl, rfl, newStore, rec, rfl, rfl, ?_⟩
      simp [inject_example_into_corpus, hcomp]

/-- Witness for C4: a dry-run `seq_start` injection of payload `[7]` into sample `0` of
the example corpus. -/
theorem claim4_witness :
    ((exampleCorpus,
      { originalSample := [1, 2, 3], modifiedSample := [1, 2, 3],
        details := { targetDoc := 0, offset := 0, oldSegment := [1], newSegment := [7] } })
      : IndexedCorpus × PreviewReport).1 = exampleCorpus ∧
    ([1, 2, 3] : List Nat) = [1, 2, 3] := by
  have h := claim4_dry_run_frame exampleCorpus 0 [7] InjectionKind.seqStart 0 0
    (exampleCorpus,
      { originalSample := [1, 2, 3], modifiedSample := [1, 2, 3],
        details := { targetDoc := 0, offset := 0, oldSegment := [1], newSegment := [7] } })
    (by decide)
  exact ⟨h.1, h.2.1⟩

end TokenSmith
